import Mathlib

/-!
Shallow embedding of `src/nemu/src/monitor/sdb/expr.c`: the debugger
expression evaluator (rule-table tokenizer with unary disambiguation,
parenthesis span matcher `is_paired`, main-operator selector
`find_main_operator_index`, and the recursive evaluator `eval_expr` /
`expr`).  Machine words (`word_t`) are modelled as natural numbers
reduced modulo `W = 2^32`; loops become structural recursion on an
explicit iteration count; the external collaborators (register lookup,
memory read) and the platform's unsigned division (undefined on a zero
divisor) are abstracted into a context `Ctx`.  A process-aborting
`Assert`/`assert` is the outcome `fatal`.
-/

namespace NemuExpr

/-- Word modulus: `word_t` is a 32-bit unsigned integer. -/
def W : Nat := 4294967296

/-- Token-type code from the C enum: whitespace, never stored. -/
def TK_NOTYPE : Nat := 256

/-- Token-type code from the C enum: `==`. -/
def TK_EQ : Nat := 257

/-- Token-type code from the C enum: decimal integer literal. -/
def TK_UINT : Nat := 258

/-- Token-type code from the C enum: hexadecimal literal. -/
def TK_HEX : Nat := 259

/-- Token-type code from the C enum: `!=`. -/
def TK_NE : Nat := 260

/-- Token-type code from the C enum: `&&`. -/
def TK_AND : Nat := 261

/-- Token-type code from the C enum: register reference. -/
def TK_REG : Nat := 262

/-- Token-type code from the C enum: unary dereference (reclassified `*`). -/
def TK_DEREF : Nat := 263

/-- Token-type code from the C enum: unary negation (reclassified `-`). -/
def TK_NEG : Nat := 264

/-- A token: a type tag (enum value or ASCII code of a single-character
operator: `+` 43, `-` 45, `*` 42, `/` 47, `(` 40, `)` 41) plus the
captured text (filled only for literal and register tokens). -/
structure Token where
  type : Nat
  str : List Char
deriving DecidableEq

/-- Longest run of characters satisfying `f` at the head of the list. -/
def countLeading (f : Char → Bool) : List Char → Nat
  | [] => 0
  | c :: cs => if f c then countLeading f cs + 1 else 0

/-- Regex `" +"`: one or more spaces, longest match at the head. -/
def matchSpaces (s : List Char) : Option Nat :=
  let n := countLeading (fun c => c == ' ') s
  if n = 0 then none else some n

/-- A literal pattern such as `"\\+"` or `"=="`: matches its own text. -/
def matchLit (pat : List Char) (s : List Char) : Option Nat :=
  if pat.isPrefixOf s then some pat.length else none

/-- Character class `[0-9AaBbCcDdEeFf]` of the hex rule. -/
def isHexDigitC (c : Char) : Bool :=
  c.isDigit || ['A', 'a', 'B', 'b', 'C', 'c', 'D', 'd', 'E', 'e', 'F', 'f'].contains c

/-- Regex `"0x[0-9AaBbCcDdEeFf]+"`: leftmost-longest match at the head. -/
def matchHex : List Char → Option Nat
  | '0' :: 'x' :: rest =>
      let n := countLeading isHexDigitC rest
      if n = 0 then none else some (n + 2)
  | _ => none

/-- Regex `"[0-9]+"`: longest run of decimal digits at the head. -/
def matchUInt (s : List Char) : Option Nat :=
  let n := countLeading Char.isDigit s
  if n = 0 then none else some n

/-- The alternatives of the register-name group
`(\$0|ra|sp|gp|tp|t[0-6]|s[0-9]|s10|s11|a[0-7])`. -/
def regNames : List (List Char) :=
  [['$', '0'], ['r', 'a'], ['s', 'p'], ['g', 'p'], ['t', 'p'],
   ['t', '0'], ['t', '1'], ['t', '2'], ['t', '3'], ['t', '4'], ['t', '5'], ['t', '6'],
   ['s', '0'], ['s', '1'], ['s', '2'], ['s', '3'], ['s', '4'], ['s', '5'],
   ['s', '6'], ['s', '7'], ['s', '8'], ['s', '9'],
   ['s', '1', '0'], ['s', '1', '1'],
   ['a', '0'], ['a', '1'], ['a', '2'], ['a', '3'], ['a', '4'], ['a', '5'],
   ['a', '6'], ['a', '7']]

/-- Regex `"\\$(\\$0|ra|...|a[0-7])"`: a sigil `$` followed by the
longest-matching alternative (POSIX leftmost-longest). -/
def matchReg : List Char → Option Nat
  | '$' :: rest =>
      let best := regNames.foldl
        (fun acc nm => if nm.isPrefixOf rest then max acc nm.length else acc) 0
      if best = 0 then none else some (best + 1)
  | _ => none

/-- The ordered rule table `rules[]` of the C file: for each rule, the
head-anchored matcher of its regex and its token type. -/
def ruleTable : List ((List Char → Option Nat) × Nat) :=
  [(matchSpaces, TK_NOTYPE),
   (matchLit ['+'], 43),
   (matchLit ['=', '='], TK_EQ),
   (matchLit ['-'], 45),
   (matchLit ['*'], 42),
   (matchLit ['/'], 47),
   (matchLit ['('], 40),
   (matchLit [')'], 41),
   (matchHex, TK_HEX),
   (matchUInt, TK_UINT),
   (matchLit ['!', '='], TK_NE),
   (matchLit ['&', '&'], TK_AND),
   (matchReg, TK_REG)]

/-- Try the rules in table order; the first rule whose regex matches at
the current position wins (`regexec` succeeding with `rm_so == 0`). -/
def tryRules : List ((List Char → Option Nat) × Nat) → List Char → Option (Nat × Nat)
  | [], _ => none
  | (m, ty) :: rs, s =>
      match m s with
      | some len => some (ty, len)
      | none => tryRules rs s

/-- First matching rule of the whole table at the head of `s`. -/
def firstMatch (s : List Char) : Option (Nat × Nat) :=
  tryRules ruleTable s

/-- Token types that make a directly preceding `*` or `-` unary: the C
comparison chain `tk == '+' || tk == '-' || tk == '*' || tk == '/' ||
tk == '(' || tk == TK_EQ || tk == TK_NE || tk == TK_AND`. -/
def binaryLeft (tk : Nat) : Bool :=
  tk == 43 || tk == 45 || tk == 42 || tk == 47 || tk == 40 ||
  tk == TK_EQ || tk == TK_NE || tk == TK_AND

/-- The unary/binary disambiguation performed at append time
(`make_token` lines 137-146): a freshly recognized `*` or `-` becomes
`TK_DEREF` / `TK_NEG` when there is no preceding token or the preceding
token's type is in `binaryLeft`. -/
def classify (acc : List Token) (ty : Nat) : Nat :=
  if ty = 42 ∨ ty = 45 then
    if acc = [] ∨ binaryLeft (acc.getLastD ⟨0, []⟩).type then
      if ty = 42 then TK_DEREF else TK_NEG
    else ty
  else ty

/-- Outcome of tokenization: `ok` is `make_token` returning true with
the recorded token sequence, `fail` is the no-rule-matches path
returning false, `fatal` is a failed `Assert` (capture or token-count
capacity), and `timeout` is exhaustion of the structural-recursion fuel
(never reached by the actual calls, which use ample fuel). -/
inductive TokOut where
  | fatal
  | fail
  | ok (ts : List Token)
  | timeout
deriving DecidableEq

/-- The scanning loop of `make_token`: at each position take the first
matching rule, advance by the match length, discard whitespace, capture
the substring for literal/register tokens (fatal if 32 or more
characters), reclassify `*`/`-` via `classify`, and append (fatal if 32
tokens are already stored).  If no rule matches, report failure. -/
def tokLoop : Nat → List Char → List Token → TokOut
  | 0, _, _ => .timeout
  | _ + 1, [], acc => .ok acc
  | fuel + 1, s, acc =>
      match firstMatch s with
      | none => .fail
      | some (ty, len) =>
          if ty = TK_NOTYPE then tokLoop fuel (s.drop len) acc
          else if ty = TK_HEX ∨ ty = TK_UINT ∨ ty = TK_REG then
            if len < 32 then
              if acc.length < 32 then
                tokLoop fuel (s.drop len) (acc ++ [⟨classify acc ty, s.take len⟩])
              else .fatal
            else .fatal
          else if ty = 43 ∨ ty = 45 ∨ ty = 42 ∨ ty = 47 ∨ ty = 40 ∨ ty = 41 ∨
                  ty = TK_EQ ∨ ty = TK_NE ∨ ty = TK_AND then
            if acc.length < 32 then
              tokLoop fuel (s.drop len) (acc ++ [⟨classify acc ty, []⟩])
            else .fatal
          else .fatal

/-- `make_token`: tokenize a whole input.  Every rule matches at least
one character, so `length + 1` fuel covers every iteration. -/
def make_token (e : List Char) : TokOut :=
  tokLoop (e.length + 1) e []

/-- Read `tokens[i]`: positions outside the recorded sequence give the
zero-initialized static `Token`. -/
def tokAt (ts : List Token) (i : Int) : Token :=
  if 0 ≤ i then ts.getD i.toNat ⟨0, []⟩ else ⟨0, []⟩

/-- Interior loop of `is_paired` over positions `i ≤ q-1`, carried as a
count `k` of remaining positions: `(` increments `n_left`, `)`
decrements it and fails as soon as it would go negative; at the end the
depth must be zero. -/
def pairLoopN (ts : List Token) : Int → Int → Nat → Bool
  | _, n, 0 => n == 0
  | i, n, k + 1 =>
      if (tokAt ts i).type = 40 then pairLoopN ts (i + 1) (n + 1) k
      else if (tokAt ts i).type = 41 then
        if n - 1 < 0 then false else pairLoopN ts (i + 1) (n - 1) k
      else pairLoopN ts (i + 1) n k

/-- `is_paired(p, q)`: the C entry test returns false only when the
token at `p` is not `(` AND the token at `q` is not `)`; otherwise the
interior `p+1 .. q-1` is scanned by `pairLoopN`. -/
def is_paired (ts : List Token) (p q : Int) : Bool :=
  if (tokAt ts p).type ≠ 40 ∧ (tokAt ts q).type ≠ 41 then false
  else pairLoopN ts (p + 1) 0 (q - p - 1).toNat

/-- Operator priority table (`priority`): `&&` lowest, then `==`/`!=`,
then `+`/`-`, then `*`/`/`, then unary dereference/negation.  The C
default is `assert(0)`; it is unreachable because the function is only
applied to operator tokens, and is given the value 0 here. -/
def priority (o : Nat) : Nat :=
  if o = TK_AND then 0
  else if o = TK_EQ ∨ o = TK_NE then 1
  else if o = 43 ∨ o = 45 then 2
  else if o = 42 ∨ o = 47 then 3
  else if o = TK_DEREF ∨ o = TK_NEG then 4
  else 0

/-- The operator cases of the `find_main_operator_index` switch. -/
def isOpTok (t : Nat) : Bool :=
  t == 43 || t == 45 || t == 42 || t == 47 ||
  t == TK_EQ || t == TK_NE || t == TK_AND || t == TK_DEREF || t == TK_NEG

/-- The scanning loop of `find_main_operator_index`, carried as a count
of remaining positions: track paren depth `n`; an operator token at
depth 0 replaces the current candidate `(mIdx, mOp)` when there is no
candidate yet or its priority is `≤` the candidate's priority. -/
def fmLoopN (ts : List Token) : Int → Int → Nat → Int → Nat → Int
  | _, mIdx, _, _, 0 => mIdx
  | i, mIdx, mOp, n, k + 1 =>
      if (tokAt ts i).type = 40 then fmLoopN ts (i + 1) mIdx mOp (n + 1) k
      else if (tokAt ts i).type = 41 then fmLoopN ts (i + 1) mIdx mOp (n - 1) k
      else if isOpTok (tokAt ts i).type then
        if n = 0 ∧ (mIdx = -1 ∨ priority (tokAt ts i).type ≤ priority mOp) then
          fmLoopN ts (i + 1) i (tokAt ts i).type n k
        else fmLoopN ts (i + 1) mIdx mOp n k
      else fmLoopN ts (i + 1) mIdx mOp n k

/-- `find_main_operator_index(p, q)`: scan `[p, q]` left to right with
no candidate (`-1`) initially. -/
def find_main_operator_index (ts : List Token) (p q : Int) : Int :=
  fmLoopN ts p (-1) 0 0 (q + 1 - p).toNat

/-- Value of a decimal digit character. -/
def digitVal (c : Char) : Nat := c.toNat - 48

/-- Value of a hexadecimal digit character (either case). -/
def hexVal (c : Char) : Nat :=
  if c.isDigit then c.toNat - 48
  else if 'a' ≤ c then c.toNat - 87
  else c.toNat - 55

/-- `sscanf(str, "%d", &result)` on a captured digit string, stored in
a `word_t`. -/
def parseDec (s : List Char) : Nat :=
  (s.foldl (fun a c => a * 10 + digitVal c) 0) % W

/-- `sscanf(str, "%x", &result)` on a captured `0x...` string. -/
def parseHex (s : List Char) : Nat :=
  ((s.drop 2).foldl (fun a c => a * 16 + hexVal c) 0) % W

/-- External collaborators and platform arithmetic: `mem` is
`vaddr_read(addr, 4)`, `reg` is `isa_reg_str2val` (value and success
flag), and `div` is the platform's unsigned machine-word division
applied by the `'/'` case — left unconstrained because the C source
performs it with no zero-divisor guard, so its value on a zero divisor
is whatever the platform produces. -/
structure Ctx where
  mem : Nat → Nat
  reg : List Char → Nat × Bool
  div : Nat → Nat → Nat

/-- Outcome of `eval_expr`: `res v ok` is a return of value `v` with
`*success` equal to `ok`, `fatal` is a failed `Assert`/`assert`, and
`timeout` is fuel exhaustion (never reached by `expr`, whose fuel
exceeds the 32-token capacity). -/
inductive EvalOut where
  | res (v : Nat) (ok : Bool)
  | fatal
  | timeout
deriving DecidableEq

/-- The final switch of `eval_expr` applying a binary main operator to
the two evaluated operands (word arithmetic modulo `W`; `==`, `!=` and
`&&` produce 0 or 1; `/` is the unguarded platform division; the C
default is `assert(0)`). -/
def applyBin (ctx : Ctx) (t : Nat) (vl vr : Nat) : EvalOut :=
  if t = 43 then .res ((vl + vr) % W) true
  else if t = 45 then .res ((vl + (W - vr)) % W) true
  else if t = 42 then .res ((vl * vr) % W) true
  else if t = 47 then .res (ctx.div vl vr % W) true
  else if t = TK_EQ then .res (if vl = vr then 1 else 0) true
  else if t = TK_NE then .res (if vl ≠ vr then 1 else 0) true
  else if t = TK_AND then .res (if vl ≠ 0 ∧ vr ≠ 0 then 1 else 0) true
  else .fatal

/-- `eval_expr(p, q, success)`: empty range fails; a single token must
be a hex, integer or register token (anything else is a fatal
`Assert`); a range accepted by `is_paired` is stripped and re-evaluated;
otherwise the main operator is located (failing when there is none),
the right sub-range is evaluated first, unary `TK_DEREF`/`TK_NEG` use
it alone, and for binary operators the left sub-range is evaluated
second, failure of either side propagating as value 0 with a false
success flag. -/
def eval_expr (ctx : Ctx) (ts : List Token) : Nat → Int → Int → EvalOut
  | 0, _, _ => .timeout
  | fuel + 1, p, q =>
      if p > q then .res 0 false
      else if p = q then
        if (tokAt ts p).type = TK_HEX then .res (parseHex (tokAt ts p).str) true
        else if (tokAt ts p).type = TK_UINT then .res (parseDec (tokAt ts p).str) true
        else if (tokAt ts p).type = TK_REG then
          .res ((ctx.reg ((tokAt ts p).str.drop 1)).1 % W) (ctx.reg ((tokAt ts p).str.drop 1)).2
        else .fatal
      else if is_paired ts p q then eval_expr ctx ts fuel (p + 1) (q - 1)
      else
        if find_main_operator_index ts p q < 0 then .res 0 false
        else
          match eval_expr ctx ts fuel (find_main_operator_index ts p q + 1) q with
          | .timeout => .timeout
          | .fatal => .fatal
          | .res _ false => .res 0 false
          | .res vr true =>
            if (tokAt ts (find_main_operator_index ts p q)).type = TK_DEREF then
              .res (ctx.mem vr % W) true
            else if (tokAt ts (find_main_operator_index ts p q)).type = TK_NEG then
              .res ((W - vr) % W) true
            else
              match eval_expr ctx ts fuel p (find_main_operator_index ts p q - 1) with
              | .timeout => .timeout
              | .fatal => .fatal
              | .res _ false => .res 0 false
              | .res vl true =>
                applyBin ctx (tokAt ts (find_main_operator_index ts p q)).type vl vr

/-- `expr(e, success)`: tokenize, then evaluate the whole token range
`[0, nr_token - 1]`.  The fuel 34 exceeds the depth reachable from at
most 32 tokens. -/
def expr (ctx : Ctx) (e : List Char) : EvalOut :=
  match make_token e with
  | .fatal => .fatal
  | .timeout => .timeout
  | .fail => .res 0 false
  | .ok ts => eval_expr ctx ts 34 0 ((ts.length : Int) - 1)

/-- Token types at the `k` positions `i, i+1, ..., i+k-1`. -/
def typesN (ts : List Token) : Int → Nat → List Nat
  | _, 0 => []
  | i, k + 1 => (tokAt ts i).type :: typesN ts (i + 1) k

/-- One step of the running paren-depth of the specification: `(` adds
one, `)` subtracts one, anything else leaves the depth unchanged. -/
def depthStep (d : Int) (t : Nat) : Int :=
  if t = 40 then d + 1 else if t = 41 then d - 1 else d

/-- Running paren-depths reached after each successive position of a
type list, starting from depth `d`. -/
def depthsOf : List Nat → Int → List Int
  | [], _ => []
  | t :: rest, d => depthStep d t :: depthsOf rest (depthStep d t)

/-- Claim C1 as the specification states it: `is_paired(p, q)` is true
iff the token at `p` is `(`, the token at `q` is `)`, and the running
paren-depth of the strictly-interior positions never becomes negative
and is exactly zero at the end of the interior. -/
def specPairedClaim (ts : List Token) (p q : Int) : Prop :=
  (tokAt ts p).type = 40 ∧ (tokAt ts q).type = 41 ∧
  (∀ d ∈ depthsOf (typesN ts (p + 1) (q - p - 1).toNat) 0, 0 ≤ d) ∧
  (typesN ts (p + 1) (q - p - 1).toNat).foldl depthStep 0 = 0

/-- Positions of depth-0 operator tokens (the candidates considered by
the `find_main_operator_index` scan) among the `k` positions starting
at `i`, with incoming paren-depth `n`. -/
def cands (ts : List Token) : Int → Int → Nat → List Int
  | _, _, 0 => []
  | i, n, k + 1 =>
      if (tokAt ts i).type = 40 then cands ts (i + 1) (n + 1) k
      else if (tokAt ts i).type = 41 then cands ts (i + 1) (n - 1) k
      else if isOpTok (tokAt ts i).type then
        if n = 0 then i :: cands ts (i + 1) n k else cands ts (i + 1) n k
      else cands ts (i + 1) n k

/-- The token types that reach the binary-operator switch of
`eval_expr` (every operator except unary dereference and negation). -/
def isBinTok (t : Nat) : Bool :=
  t == 43 || t == 45 || t == 42 || t == 47 || t == TK_EQ || t == TK_NE || t == TK_AND

/-- Token sequence produced by `make_token` on `"-3)"`. -/
def tsUnb : List Token := [⟨TK_NEG, []⟩, ⟨TK_UINT, ['3']⟩, ⟨41, []⟩]

/-- Token sequence produced by `make_token` on `"10-3-2"`. -/
def tsChain : List Token :=
  [⟨TK_UINT, ['1', '0']⟩, ⟨45, []⟩, ⟨TK_UINT, ['3']⟩, ⟨45, []⟩, ⟨TK_UINT, ['2']⟩]

/-- Token sequence produced by `make_token` on `"1&&0"`. -/
def tsAnd : List Token := [⟨TK_UINT, ['1']⟩, ⟨TK_AND, []⟩, ⟨TK_UINT, ['0']⟩]

/-- Token sequence produced by `make_token` on `"1/0"`. -/
def tsDiv : List Token := [⟨TK_UINT, ['1']⟩, ⟨47, []⟩, ⟨TK_UINT, ['0']⟩]

/-- A concrete context used by the witnesses: zeroed memory, a failing
register lookup, and truncating natural division. -/
def ctx0 : Ctx := ⟨fun _ => 0, fun _ => (0, false), fun a b => a / b⟩

lemma countLeading_spaces (s : List Char) (h : ∀ c ∈ s, c = ' ') :
    countLeading (fun c => c == ' ') s = s.length := by
  induction s with
  | nil => rfl
  | cons c cs ih =>
      have hc : c = ' ' := h c (List.mem_cons_self c cs)
      simp [countLeading, hc, ih (fun d hd => h d (List.mem_cons_of_mem c hd))]

lemma make_token_spaces (s : List Char) (h : ∀ c ∈ s, c = ' ') :
    make_token s = .ok [] := by
  cases s with
  | nil => rfl
  | cons c cs =>
      have hc : countLeading (fun c => c == ' ') (c :: cs) = cs.length + 1 := by
        simpa using countLeading_spaces (c :: cs) h
      have hfm : firstMatch (c :: cs) = some (TK_NOTYPE, cs.length + 1) := by
        simp [firstMatch, tryRules, ruleTable, matchSpaces, hc]
      show tokLoop (cs.length + 1 + 1) (c :: cs) [] = .ok []
      simp only [tokLoop, hfm]
      have hdrop : (c :: cs).drop (cs.length + 1) = [] := by
        have : cs.length + 1 = (c :: cs).length := by simp
        rw [this, List.drop_length]
      simp [hdrop, tokLoop]

/-- Claim C2 (code bug): the input `"+"` is accepted by the tokenizer
as the single token `'+'`, and evaluating it reaches the single-token
base case of `eval_expr` with a non-literal token, hitting the default
`Assert(false)` branch — the branch the claim says is unreachable. -/
theorem C2_fatal_reachable (ctx : Ctx) :
    make_token ['+'] = .ok [⟨43, []⟩] ∧ expr ctx ['+'] = .fatal :=
  ⟨by decide, rfl⟩

/-- Claim C3: on the input `"-3)"`, which contains an unmatched closing
parenthesis, the entry test of `is_paired` is passed even though the
first token is negation rather than `(` (the test requires both ends to
mismatch), the first and last tokens are stripped, and `expr` succeeds
with value 3. -/
theorem C3_unmatched (ctx : Ctx) :
    make_token ['-', '3', ')'] = .ok tsUnb ∧ (tokAt tsUnb 0).type ≠ 40 ∧
      is_paired tsUnb 0 2 = true ∧ expr ctx ['-', '3', ')'] = .res 3 true :=
  ⟨by decide, by decide, by decide, rfl⟩

/-- Claim C5: `*` and `/` have priority 3, strictly tighter than the
priority 2 of `+` and `-`, and parentheses override precedence:
`eval("2+3*4") = (14, true)` and `eval("(2+3)*4") = (20, true)`. -/
theorem C5_precedence (ctx : Ctx) :
    priority 42 = 3 ∧ priority 47 = 3 ∧ priority 43 = 2 ∧ priority 45 = 2 ∧
      expr ctx ['2', '+', '3', '*', '4'] = .res 14 true ∧
      expr ctx ['(', '2', '+', '3', ')', '*', '4'] = .res 20 true :=
  ⟨by decide, by decide, by decide, by decide, rfl, rfl⟩

/-- Claim C8: an input consisting solely of whitespace (the whitespace
rule of the table matches exactly spaces) tokenizes successfully to
zero tokens, and evaluating the resulting empty range fails with value
0 and a false success flag. -/
theorem C8_whitespace (s : List Char) (ctx : Ctx) (h : ∀ c ∈ s, c = ' ') :
    make_token s = .ok [] ∧ expr ctx s = .res 0 false := by
  have ht := make_token_spaces s h
  refine ⟨ht, ?_⟩
  simp only [expr, ht]
  rfl

/-- Witness for C8 at the concrete two-space input. -/
theorem C8_whitespace_w :
    (∀ c ∈ [' ', ' '], c = ' ') ∧
      (make_token [' ', ' '] = .ok [] ∧ expr ctx0 [' ', ' '] = .res 0 false) :=
  ⟨by decide, C8_whitespace [' ', ' '] ctx0 (by decide)⟩

/-- Claim C9: `"0x1A"` tokenizes to exactly one token of hex kind (the
hex rule precedes the bare-digits rule in the table), and evaluation
parses it in base 16, giving `(26, true)`. -/
theorem C9_hex (ctx : Ctx) :
    make_token ['0', 'x', '1', 'A'] = .ok [⟨TK_HEX, ['0', 'x', '1', 'A']⟩] ∧
      expr ctx ['0', 'x', '1', 'A'] = .res 26 true :=
  ⟨by decide, rfl⟩

/-- Claim C6: a freshly recognized `*` or `-` is reclassified to the
corresponding unary kind exactly when the token sequence so far is
empty or its last token's type is one of `+ - * / ( == != &&`;
consequently `"-3"` starts with a negation token and evaluates to the
machine word `-3 = W - 3` with success, while `"4-3"` keeps a binary
subtraction and evaluates to `(1, true)`. -/
theorem C6_unary :
    (∀ (acc : List Token) (ty : Nat), ty = 42 ∨ ty = 45 →
      ((classify acc ty = TK_DEREF ∨ classify acc ty = TK_NEG) ↔
        (acc = [] ∨ ((acc.getLastD ⟨0, []⟩).type = 43 ∨ (acc.getLastD ⟨0, []⟩).type = 45 ∨
          (acc.getLastD ⟨0, []⟩).type = 42 ∨ (acc.getLastD ⟨0, []⟩).type = 47 ∨
          (acc.getLastD ⟨0, []⟩).type = 40 ∨ (acc.getLastD ⟨0, []⟩).type = TK_EQ ∨
          (acc.getLastD ⟨0, []⟩).type = TK_NE ∨ (acc.getLastD ⟨0, []⟩).type = TK_AND)))) ∧
    make_token ['-', '3'] = .ok [⟨TK_NEG, []⟩, ⟨TK_UINT, ['3']⟩] ∧
    make_token ['4', '-', '3'] = .ok [⟨TK_UINT, ['4']⟩, ⟨45, []⟩, ⟨TK_UINT, ['3']⟩] ∧
    (∀ ctx, expr ctx ['-', '3'] = .res (W - 3) true ∧ expr ctx ['4', '-', '3'] = .res 1 true) := by
  refine ⟨?_, by decide, by decide, fun ctx => ⟨rfl, rfl⟩⟩
  intro acc ty hty
  simp only [classify, if_pos hty]
  by_cases htr : acc = [] ∨ binaryLeft (acc.getLastD ⟨0, []⟩).type
  · rw [if_pos htr]
    simp only [binaryLeft, Bool.or_eq_true, beq_iff_eq] at htr
    constructor
    · intro _; tauto
    · intro _
      rcases hty with rfl | rfl
      · left; rw [if_pos rfl]
      · right; norm_num
  · rw [if_neg htr]
    simp only [binaryLeft, Bool.or_eq_true, beq_iff_eq] at htr
    constructor
    · intro h
      rcases hty with rfl | rfl <;>
        rcases h with h | h <;> simp [TK_DEREF, TK_NEG] at h
    · intro h; exact absurd h (by tauto)

/-- Witness for C6 with an empty preceding sequence and a `-` token. -/
theorem C6_unary_w :
    ((45 : Nat) = 42 ∨ (45 : Nat) = 45) ∧
      ((classify [] 45 = TK_DEREF ∨ classify [] 45 = TK_NEG) ↔
        (([] : List Token) = [] ∨ ((([] : List Token).getLastD ⟨0, []⟩).type = 43 ∨
          (([] : List Token).getLastD ⟨0, []⟩).type = 45 ∨
          (([] : List Token).getLastD ⟨0, []⟩).type = 42 ∨
          (([] : List Token).getLastD ⟨0, []⟩).type = 47 ∨
          (([] : List Token).getLastD ⟨0, []⟩).type = 40 ∨
          (([] : List Token).getLastD ⟨0, []⟩).type = TK_EQ ∨
          (([] : List Token).getLastD ⟨0, []⟩).type = TK_NE ∨
          (([] : List Token).getLastD ⟨0, []⟩).type = TK_AND))) :=
  ⟨by decide, C6_unary.1 [] 45 (by decide)⟩

lemma pairLoopN_iff (ts : List Token) :
    ∀ (k : Nat) (i n : Int), 0 ≤ n →
      (pairLoopN ts i n k = true ↔
        ((∀ d ∈ depthsOf (typesN ts i k) n, 0 ≤ d) ∧
          (typesN ts i k).foldl depthStep n = 0)) := by
  intro k
  induction k with
  | zero =>
      intro i n _
      simp [pairLoopN, typesN, depthsOf]
  | succ k ih =>
      intro i n hn
      have hT : typesN ts i (k + 1) = (tokAt ts i).type :: typesN ts (i + 1) k := rfl
      by_cases h40 : (tokAt ts i).type = 40
      · have hstep : depthStep n (tokAt ts i).type = n + 1 := by simp [depthStep, h40]
        have hL : pairLoopN ts i n (k + 1) = pairLoopN ts (i + 1) (n + 1) k := by
          simp [pairLoopN, h40]
        rw [hL, hT]
        simp only [depthsOf, hstep, List.foldl_cons, List.forall_mem_cons]
        rw [ih (i + 1) (n + 1) (by omega)]
        have h1 : (0 : Int) ≤ n + 1 := by omega
        tauto
      · by_cases h41 : (tokAt ts i).type = 41
        · have hstep : depthStep n (tokAt ts i).type = n - 1 := by
            simp [depthStep, h40, h41]
          by_cases hneg : n - 1 < 0
          · have hL : pairLoopN ts i n (k + 1) = false := by
              simp [pairLoopN, h40, h41, hneg]
            rw [hL, hT]
            simp only [depthsOf, hstep, List.foldl_cons, List.forall_mem_cons]
            constructor
            · intro h; simp at h
            · rintro ⟨⟨hhead, _⟩, _⟩; omega
          · have hL : pairLoopN ts i n (k + 1) = pairLoopN ts (i + 1) (n - 1) k := by
              simp [pairLoopN, h40, h41, hneg]
            rw [hL, hT]
            simp only [depthsOf, hstep, List.foldl_cons, List.forall_mem_cons]
            rw [ih (i + 1) (n - 1) (by omega)]
            have h1 : (0 : Int) ≤ n - 1 := by omega
            tauto
        · have hstep : depthStep n (tokAt ts i).type = n := by simp [depthStep, h40, h41]
          have hL : pairLoopN ts i n (k + 1) = pairLoopN ts (i + 1) n k := by
            simp [pairLoopN, h40, h41]
          rw [hL, hT]
          simp only [depthsOf, hstep, List.foldl_cons, List.forall_mem_cons]
          rw [ih (i + 1) n hn]
          tauto

/-- Counterexample to claim C1 as stated: on the token sequence of
`"-3)"` with `p = 0 ≤ q = 2`, `is_paired` returns true although the
token at `p` is negation, not `(` — the claimed iff fails because the C
entry test rejects only when BOTH ends mismatch. -/
theorem C1_counterexample :
    ((0 : Int) ≤ 2) ∧ ¬(is_paired tsUnb 0 2 = true ↔ specPairedClaim tsUnb 0 2) := by
  refine ⟨by decide, fun hiff => ?_⟩
  have h := (hiff.mp (by decide)).1
  exact absurd h (by decide)

/-- Claim C1 amended: for `p ≤ q`, `is_paired(p, q)` returns true iff
the token at `p` is `(` OR the token at `q` is `)` (the code rejects
outright only when both ends mismatch), and the running paren-depth of
the strictly-interior positions never becomes negative and is exactly
zero at the end of the interior. -/
theorem C1_paired_amended (ts : List Token) (p q : Int) (_hpq : p ≤ q) :
    is_paired ts p q = true ↔
      (((tokAt ts p).type = 40 ∨ (tokAt ts q).type = 41) ∧
        (∀ d ∈ depthsOf (typesN ts (p + 1) (q - p - 1).toNat) 0, 0 ≤ d) ∧
        (typesN ts (p + 1) (q - p - 1).toNat).foldl depthStep 0 = 0) := by
  by_cases hc : (tokAt ts p).type ≠ 40 ∧ (tokAt ts q).type ≠ 41
  · have hL : is_paired ts p q = false := by simp [is_paired, hc]
    rw [hL]
    constructor
    · intro h; simp at h
    · rintro ⟨h1, _⟩; tauto
  · have hL : is_paired ts p q = pairLoopN ts (p + 1) 0 (q - p - 1).toNat := by
      simp only [is_paired, if_neg hc]
    rw [hL, pairLoopN_iff ts (q - p - 1).toNat (p + 1) 0 le_rfl]
    have h1 : (tokAt ts p).type = 40 ∨ (tokAt ts q).type = 41 := by tauto
    tauto

/-- Witness for the amended C1 at the `"-3)"` token sequence. -/
theorem C1_paired_amended_w :
    ((0 : Int) ≤ 2) ∧
      (is_paired tsUnb 0 2 = true ↔
        (((tokAt tsUnb 0).type = 40 ∨ (tokAt tsUnb 2).type = 41) ∧
          (∀ d ∈ depthsOf (typesN tsUnb (0 + 1) ((2 : Int) - 0 - 1).toNat) 0, 0 ≤ d) ∧
          (typesN tsUnb (0 + 1) ((2 : Int) - 0 - 1).toNat).foldl depthStep 0 = 0)) :=
  ⟨by decide, C1_paired_amended tsUnb 0 2 (by decide)⟩

lemma fmLoopN_sameP (ts : List Token) (P : Nat) :
    ∀ (k : Nat) (i mIdx : Int) (mOp : Nat) (n : Int),
      (∀ j ∈ cands ts i n k, priority (tokAt ts j).type = P) →
      (mIdx = -1 ∨ P ≤ priority mOp) →
      fmLoopN ts i mIdx mOp n k = (cands ts i n k).getLastD mIdx := by
  intro k
  induction k with
  | zero => intro i mIdx mOp n _ _; rfl
  | succ k ih =>
      intro i mIdx mOp n hP hm
      by_cases h40 : (tokAt ts i).type = 40
      · have hL : fmLoopN ts i mIdx mOp n (k + 1) = fmLoopN ts (i + 1) mIdx mOp (n + 1) k := by
          simp [fmLoopN, h40]
        have hc : cands ts i n (k + 1) = cands ts (i + 1) (n + 1) k := by
          simp [cands, h40]
        rw [hc] at hP
        rw [hL, hc]
        exact ih (i + 1) mIdx mOp (n + 1) hP hm
      · by_cases h41 : (tokAt ts i).type = 41
        · have hL : fmLoopN ts i mIdx mOp n (k + 1) = fmLoopN ts (i + 1) mIdx mOp (n - 1) k := by
            simp [fmLoopN, h40, h41]
          have hc : cands ts i n (k + 1) = cands ts (i + 1) (n - 1) k := by
            simp [cands, h40, h41]
          rw [hc] at hP
          rw [hL, hc]
          exact ih (i + 1) mIdx mOp (n - 1) hP hm
        · by_cases hop : isOpTok (tokAt ts i).type
          · by_cases hn : n = 0
            · have hc : cands ts i n (k + 1) = i :: cands ts (i + 1) n k := by
                simp [cands, h40, h41, hop, hn]
              rw [hc] at hP
              have hPi : priority (tokAt ts i).type = P := hP i (List.mem_cons_self _ _)
              have hguard : n = 0 ∧ (mIdx = -1 ∨
                  priority (tokAt ts i).type ≤ priority mOp) := by
                refine ⟨hn, ?_⟩
                rcases hm with h | h
                · exact Or.inl h
                · exact Or.inr (by rw [hPi]; exact h)
              have hL : fmLoopN ts i mIdx mOp n (k + 1) =
                  fmLoopN ts (i + 1) i (tokAt ts i).type n k := by
                simp [fmLoopN, h40, h41, hop, hguard]
              rw [hL, hc, List.getLastD_cons]
              exact ih (i + 1) i (tokAt ts i).type n
                (fun j hj => hP j (List.mem_cons_of_mem _ hj)) (Or.inr (le_of_eq hPi.symm))
            · have hc : cands ts i n (k + 1) = cands ts (i + 1) n k := by
                simp [cands, h40, h41, hop, hn]
              rw [hc] at hP
              have hL : fmLoopN ts i mIdx mOp n (k + 1) = fmLoopN ts (i + 1) mIdx mOp n k := by
                simp [fmLoopN, h40, h41, hop, hn]
              rw [hL, hc]
              exact ih (i + 1) mIdx mOp n hP hm
          · have hc : cands ts i n (k + 1) = cands ts (i + 1) n k := by
              simp [cands, h40, h41, hop]
            rw [hc] at hP
            have hL : fmLoopN ts i mIdx mOp n (k + 1) = fmLoopN ts (i + 1) mIdx mOp n k := by
              simp [fmLoopN, h40, h41, hop]
            rw [hL, hc]
            exact ih (i + 1) mIdx mOp n hP hm

/-- Claim C4: when every depth-0 operator candidate of `[p, q]` has the
same priority `P` (a chain of same-priority binary operators), the
`≤`-tie-break of the scan makes `find_main_operator_index` return the
LAST — right-most — candidate (`getLastD` of the left-to-right candidate
list, `-1` when there is none); consequently `"10-3-2"` selects the
second `-` (index 3) as main operator and evaluates left-associatively
to `(5, true)`. -/
theorem C4_left_assoc :
    (∀ (ts : List Token) (p q : Int) (P : Nat),
      (∀ j ∈ cands ts p 0 (q + 1 - p).toNat, priority (tokAt ts j).type = P) →
      find_main_operator_index ts p q = (cands ts p 0 (q + 1 - p).toNat).getLastD (-1)) ∧
    make_token ['1', '0', '-', '3', '-', '2'] = .ok tsChain ∧
    cands tsChain 0 0 5 = [1, 3] ∧
    find_main_operator_index tsChain 0 4 = 3 ∧
    (∀ ctx, expr ctx ['1', '0', '-', '3', '-', '2'] = .res 5 true) := by
  refine ⟨?_, by decide, by decide, by decide, fun ctx => rfl⟩
  intro ts p q P hP
  exact fmLoopN_sameP ts P (q + 1 - p).toNat p (-1) 0 0 hP (Or.inl rfl)

/-- Witness for C4 at the `"10-3-2"` token sequence (both candidates
have priority 2). -/
theorem C4_left_assoc_w :
    (∀ j ∈ cands tsChain 0 0 ((4 : Int) + 1 - 0).toNat,
        priority (tokAt tsChain j).type = 2) ∧
      find_main_operator_index tsChain 0 4 =
        (cands tsChain 0 0 ((4 : Int) + 1 - 0).toNat).getLastD (-1) :=
  ⟨by decide, C4_left_assoc.1 tsChain 0 4 2 (by decide)⟩

/-- Claim C7: when a binary main operator at index `r` splits a
non-paired range `p < q`, the evaluator of the next fuel level is
determined by the recursive evaluations of the right sub-range
`[r+1, q]` and the left sub-range `[p, r-1]` as follows: a failed right
side makes the whole range return `(0, false)` with no dependence on
the left sub-range at all (right is evaluated first, left never
evaluated), a failed left side after a successful right side also
returns `(0, false)`, two successes apply the operator switch
`applyBin` — so for `&&` both operands are always required (no
short-circuit) — and the `&&` result is always 0 or 1. -/
theorem C7_eval_structure (ctx : Ctx) (ts : List Token) (fuel : Nat) (p q r : Int)
    (h1 : p < q) (h2 : is_paired ts p q = false)
    (h3 : find_main_operator_index ts p q = r) (h4 : 0 ≤ r)
    (h5 : isBinTok (tokAt ts r).type = true) :
    (∀ vr, eval_expr ctx ts fuel (r + 1) q = .res vr false →
      eval_expr ctx ts (fuel + 1) p q = .res 0 false) ∧
    (∀ vr vl, eval_expr ctx ts fuel (r + 1) q = .res vr true →
      eval_expr ctx ts fuel p (r - 1) = .res vl false →
      eval_expr ctx ts (fuel + 1) p q = .res 0 false) ∧
    (∀ vr vl, eval_expr ctx ts fuel (r + 1) q = .res vr true →
      eval_expr ctx ts fuel p (r - 1) = .res vl true →
      eval_expr ctx ts (fuel + 1) p q = applyBin ctx (tokAt ts r).type vl vr) ∧
    (∀ vl vr, ∃ b, applyBin ctx TK_AND vl vr = .res b true ∧ b ≤ 1) := by
  have hd : (tokAt ts r).type ≠ TK_DEREF ∧ (tokAt ts r).type ≠ TK_NEG := by
    simp only [isBinTok, Bool.or_eq_true, beq_iff_eq] at h5
    rcases h5 with ((((((h | h) | h) | h) | h) | h) | h) <;> rw [h] <;>
      exact ⟨by decide, by decide⟩
  have hpq : ¬p > q := by omega
  have hne : ¬p = q := by omega
  have hr : ¬r < 0 := by omega
  have hpair : ¬(is_paired ts p q = true) := by simp [h2]
  refine ⟨?_, ?_, ?_, ?_⟩
  · intro vr hR
    simp only [eval_expr]
    rw [if_neg hpq, if_neg hne, if_neg hpair, h3, if_neg hr, hR]
  · intro vr vl hR hL
    simp only [eval_expr]
    rw [if_neg hpq, if_neg hne, if_neg hpair, h3, if_neg hr, hR]
    simp [hd.1, hd.2, hL]
  · intro vr vl hR hL
    simp only [eval_expr]
    rw [if_neg hpq, if_neg hne, if_neg hpair, h3, if_neg hr, hR]
    simp [hd.1, hd.2, hL]
  · intro vl vr
    refine ⟨if vl ≠ 0 ∧ vr ≠ 0 then 1 else 0, ?_, ?_⟩
    · simp [applyBin, TK_AND, TK_EQ, TK_NE]
    · split <;> omega

/-- Witness for C7 at the `"1&&0"` token sequence with one unit of
inner fuel. -/
theorem C7_eval_structure_w :
    ((0 : Int) < 2) ∧ is_paired tsAnd 0 2 = false ∧
      find_main_operator_index tsAnd 0 2 = 1 ∧ ((0 : Int) ≤ 1) ∧
      isBinTok (tokAt tsAnd 1).type = true ∧
      eval_expr ctx0 tsAnd 2 0 2 = applyBin ctx0 (tokAt tsAnd 1).type 1 0 :=
  ⟨by decide, by decide, by decide, by decide, by decide,
    (C7_eval_structure ctx0 tsAnd 1 0 2 1 (by decide) (by decide) (by decide) (by decide)
        (by decide)).2.2.1 0 1 (by decide) (by decide)⟩

/-- Claim C10: when the main operator is `/` and both operands evaluate
successfully, the evaluator returns the platform division `ctx.div`
applied with NO zero-divisor guard and a true success flag — for every
division function and every right operand, including zero, so a zero
divisor is never reported through the success flag. -/
theorem C10_div_unguarded (ctx : Ctx) (ts : List Token) (fuel : Nat) (p q r : Int)
    (vl vr : Nat)
    (h1 : p < q) (h2 : is_paired ts p q = false)
    (h3 : find_main_operator_index ts p q = r) (h4 : 0 ≤ r)
    (h5 : (tokAt ts r).type = 47)
    (h6 : eval_expr ctx ts fuel (r + 1) q = .res vr true)
    (h7 : eval_expr ctx ts fuel p (r - 1) = .res vl true) :
    eval_expr ctx ts (fuel + 1) p q = .res (ctx.div vl vr % W) true := by
  have hpq : ¬p > q := by omega
  have hne : ¬p = q := by omega
  have hr : ¬r < 0 := by omega
  have hpair : ¬(is_paired ts p q = true) := by simp [h2]
  have hd : (tokAt ts r).type ≠ TK_DEREF := by rw [h5]; decide
  have hn : (tokAt ts r).type ≠ TK_NEG := by rw [h5]; decide
  simp only [eval_expr]
  rw [if_neg hpq, if_neg hne, if_neg hpair, h3, if_neg hr, h6]
  simp [hd, hn, h7, h5, applyBin, TK_DEREF, TK_NEG]

/-- Witness for C10 at the `"1/0"` token sequence: the divisor is 0 and
the result is reported with a true success flag. -/
theorem C10_div_unguarded_w :
    ((0 : Int) < 2) ∧ is_paired tsDiv 0 2 = false ∧
      find_main_operator_index tsDiv 0 2 = 1 ∧ ((0 : Int) ≤ 1) ∧
      (tokAt tsDiv 1).type = 47 ∧
      eval_expr ctx0 tsDiv 1 2 2 = .res 0 true ∧
      eval_expr ctx0 tsDiv 1 0 0 = .res 1 true ∧
      eval_expr ctx0 tsDiv 2 0 2 = .res (ctx0.div 1 0 % W) true :=
  ⟨by decide, by decide, by decide, by decide, by decide, by decide, by decide,
    C10_div_unguarded ctx0 tsDiv 1 0 2 1 1 0 (by decide) (by decide) (by decide) (by decide)
      (by decide) (by decide) (by decide)⟩

end NemuExpr
